import Mathlib

/-!
Todo store API and SSR frontend: a shallow embedding

Two Go programs are embedded here.

* `src/backend/main.go`: the in-memory todo store.  The package globals
  `todos` and `nextID` become the fields of `Backend.Store`, and every gin
  handler becomes a function `Store → inputs → Store × Response`.
* `src/frontend-ssr-go/main.go`: the server-side-rendering frontend.
  `indexHandler` becomes a function computing the `PageData` handed to the
  template; each form handler becomes a function returning the redirect URL.

Conventions.

* Go `int` is the 64-bit two's-complement integer; `nextID++` is followed by
  `wrapInt`.
* `time.Now()` is an input: every call site receives its clock reading as an
  argument (`createTodo` and `seedData` read the clock twice).
* `strconv.Atoi` and `ShouldBindJSON` are library calls; their results are
  inputs (`Option Int` for the parsed id, `Except String Todo` for the body).
* The frontend reaches the API over HTTP.  An exchange is either delivered,
  dropped before the API sees it, or handled with the reply lost (`Link`); the
  JSON a client function sends is bound by the API with zero values for the
  fields it does not carry.
* Counters bounded by a slice length (`completedCount`, `len(todos)`) are
  plain integers: they cannot overflow.
-/

/-- A `time.Time` value, as a count of clock ticks. -/
abbrev Time := Int

/-- The zero value of `time.Time`. -/
def zeroTime : Time := 0

/-- Two's-complement wrap-around of a Go `int` (64 bits). -/
def wrapInt (x : Int) : Int := (x + 2 ^ 63) % 2 ^ 64 - 2 ^ 63

/-- The largest Go `int`. -/
def maxInt : Int := 2 ^ 63 - 1

namespace Backend

/-- The `Todo` struct of the backend. -/
structure Todo where
  ID : Int
  Title : String
  Description : String
  Completed : Bool
  Priority : String
  CreatedAt : Time
  UpdatedAt : Time
deriving DecidableEq, Repr

/-- The package-level variables `todos` and `nextID`. -/
structure Store where
  todos : List Todo
  nextID : Int
deriving DecidableEq, Repr

/-- What a handler hands to `c.JSON`. -/
inductive Payload where
  | todo (t : Todo)
  | todos (ts : List Todo)
  | message (m : String)
  | error (m : String)
deriving DecidableEq, Repr

/-- An HTTP response: status code and JSON payload. -/
structure Response where
  status : Nat
  body : Payload
deriving DecidableEq, Repr

/-- Constant `http.StatusOK`. -/
def StatusOK : Nat := 200
/-- Constant `http.StatusCreated`. -/
def StatusCreated : Nat := 201
/-- Constant `http.StatusBadRequest`. -/
def StatusBadRequest : Nat := 400
/-- Constant `http.StatusNotFound`. -/
def StatusNotFound : Nat := 404

/-- The state at process start: `var todos []Todo`, `var nextID = 1`. -/
def initStore : Store := { todos := [], nextID := 1 }

/-- Function `seedData`: one welcome item with the current `nextID`, then `nextID++`. -/
def seedData (s : Store) (now1 now2 : Time) : Store :=
  { todos :=
      [{ ID := s.nextID
         Title := "Welcome to Todo App"
         Description := "This is your first todo item. You can edit, complete, or delete it."
         Completed := false
         Priority := "medium"
         CreatedAt := now1
         UpdatedAt := now2 }]
    nextID := wrapInt (s.nextID + 1) }

/-- The loop `for i, todo := range todos { if todo.ID == id { ... return } }`:
the index and value of the first item whose `ID` is `id`, if any. -/
def scanID (id : Int) : List Todo → Option (Nat × Todo)
  | [] => none
  | t :: ts => if t.ID = id then some (0, t) else (scanID id ts).map (fun p => (p.1 + 1, p.2))

/-- Handler `getTodos`. -/
def getTodos (s : Store) : Store × Response :=
  (s, ⟨StatusOK, .todos s.todos⟩)

/-- Handler `getTodoByID`: bad request on an unparsable id, else a linear scan. -/
def getTodoByID (s : Store) (idParam : Option Int) : Store × Response :=
  match idParam with
  | none => (s, ⟨StatusBadRequest, .error "Invalid ID"⟩)
  | some id =>
    match scanID id s.todos with
    | some (_, todo) => (s, ⟨StatusOK, .todo todo⟩)
    | none => (s, ⟨StatusNotFound, .error "Todo not found"⟩)

/-- Handler `createTodo`: the id and both timestamps of the body are overwritten,
an empty priority becomes `"medium"`, and the item is appended. -/
def createTodo (s : Store) (now1 now2 : Time) (body : Except String Todo) : Store × Response :=
  match body with
  | .error e => (s, ⟨StatusBadRequest, .error e⟩)
  | .ok newTodo =>
    let newTodo := { newTodo with ID := s.nextID }
    let nextID := wrapInt (s.nextID + 1)
    let newTodo := { newTodo with CreatedAt := now1 }
    let newTodo := { newTodo with UpdatedAt := now2 }
    let newTodo := if newTodo.Priority = "" then { newTodo with Priority := "medium" } else newTodo
    ({ todos := s.todos ++ [newTodo], nextID := nextID }, ⟨StatusCreated, .todo newTodo⟩)

/-- Handler `updateTodo`: the id is parsed first, then the body is bound, then
the collection is scanned and the first item with that id is overwritten. -/
def updateTodo (s : Store) (now : Time) (idParam : Option Int) (body : Except String Todo) :
    Store × Response :=
  match idParam with
  | none => (s, ⟨StatusBadRequest, .error "Invalid ID"⟩)
  | some id =>
    match body with
    | .error e => (s, ⟨StatusBadRequest, .error e⟩)
    | .ok updatedTodo =>
      match scanID id s.todos with
      | some (i, todo) =>
        let updatedTodo := { updatedTodo with ID := id }
        let updatedTodo := { updatedTodo with CreatedAt := todo.CreatedAt }
        let updatedTodo := { updatedTodo with UpdatedAt := now }
        ({ s with todos := s.todos.set i updatedTodo }, ⟨StatusOK, .todo updatedTodo⟩)
      | none => (s, ⟨StatusNotFound, .error "Todo not found"⟩)

/-- Handler `deleteTodo`: `todos = append(todos[:i], todos[i+1:]...)`. -/
def deleteTodo (s : Store) (idParam : Option Int) : Store × Response :=
  match idParam with
  | none => (s, ⟨StatusBadRequest, .error "Invalid ID"⟩)
  | some id =>
    match scanID id s.todos with
    | some (i, _) =>
      ({ s with todos := s.todos.take i ++ s.todos.drop (i + 1) },
        ⟨StatusOK, .message "Todo deleted successfully"⟩)
    | none => (s, ⟨StatusNotFound, .error "Todo not found"⟩)

/-- Handler `toggleTodo`: flips `Completed` of the first item with that id and
refreshes its `UpdatedAt`. -/
def toggleTodo (s : Store) (now : Time) (idParam : Option Int) : Store × Response :=
  match idParam with
  | none => (s, ⟨StatusBadRequest, .error "Invalid ID"⟩)
  | some id =>
    match scanID id s.todos with
    | some (i, todo) =>
      let t1 := { todo with Completed := !todo.Completed }
      let t2 := { t1 with UpdatedAt := now }
      ({ s with todos := s.todos.set i t2 }, ⟨StatusOK, .todo t2⟩)
    | none => (s, ⟨StatusNotFound, .error "Todo not found"⟩)

/-- One mutating request to the API, with everything the handler reads from
the outside (clock readings, parsed id, bound body). -/
inductive Op where
  | create (now1 now2 : Time) (body : Except String Todo)
  | update (now : Time) (idParam : Option Int) (body : Except String Todo)
  | toggle (now : Time) (idParam : Option Int)
  | delete (idParam : Option Int)

/-- Dispatch of one request to its handler. -/
def step (s : Store) : Op → Store × Response
  | .create now1 now2 body => createTodo s now1 now2 body
  | .update now idParam body => updateTodo s now idParam body
  | .toggle now idParam => toggleTodo s now idParam
  | .delete idParam => deleteTodo s idParam

/-- A sequence of requests handled one after the other; the responses are
collected in order. -/
def run (s : Store) : List Op → Store × List Response
  | [] => (s, [])
  | op :: ops =>
    let r := step s op
    let rest := run r.1 ops
    (rest.1, r.2 :: rest.2)

/-- The id carried by a `201 Created` response. -/
def createdID (r : Response) : Option Int :=
  if r.status = StatusCreated then
    match r.body with
    | .todo t => some t.ID
    | _ => none
  else none

/-- The ids assigned by the successful creates of a response log, in order. -/
def createdIDs (rs : List Response) : List Int := rs.filterMap createdID

/-- The ids of the items of a collection, in order. -/
def ids (ts : List Todo) : List Int := ts.map (·.ID)

/-- A store state reachable from the seeded state by a sequence of requests
short enough that the 64-bit counter `nextID` cannot have wrapped around. -/
def Reachable (s : Store) : Prop :=
  ∃ (now1 now2 : Time) (ops : List Op),
    ops.length + 2 < 2 ^ 63 ∧ s = (run (seedData initStore now1 now2) ops).1

/-- The store invariant: every stored id is below the counter, and the
stored ids are pairwise distinct. -/
def Inv (s : Store) : Prop :=
  (∀ t ∈ s.todos, t.ID < s.nextID) ∧ (ids s.todos).Nodup

/-- The `UpdatedAt` of the item a lookup by id finds (the first with that id). -/
def updatedAtOf (s : Store) (id : Int) : Option Time :=
  (scanID id s.todos).map (fun p => p.2.UpdatedAt)

/-- Whether the `UpdatedAt` of the item with the given id is strictly later in
the state `after` than in the state `before` (false when either lacks it). -/
def advanced (before after : Store) (id : Int) : Bool :=
  match updatedAtOf before id, updatedAtOf after id with
  | some a, some b => decide (a < b)
  | _, _ => false

/-- The item `createTodo` builds from a bound body. -/
def built (s : Store) (now1 now2 : Time) (b : Todo) : Todo :=
  { b with ID := s.nextID, CreatedAt := now1, UpdatedAt := now2,
           Priority := if b.Priority = "" then "medium" else b.Priority }

end Backend

namespace Frontend

/-- The `Todo` struct of the frontend (the shape decoded from the API). -/
structure Todo where
  ID : Int
  Title : String
  Description : String
  Completed : Bool
  Priority : String
  CreatedAt : Time
  UpdatedAt : Time
deriving DecidableEq, Repr

/-- The `CreateTodo` request body. -/
structure CreateTodo where
  Title : String
  Description : String
  Priority : String
deriving DecidableEq, Repr

/-- The `UpdateTodo` request body. -/
structure UpdateTodo where
  Title : String
  Description : String
  Priority : String
deriving DecidableEq, Repr

/-- The `PageData` struct handed to the template. -/
structure PageData where
  Todos : List Todo
  Filter : String
  CompletedCount : Int
  TotalCount : Int
  ActiveCount : Int
  Error : String
  Success : String
deriving DecidableEq, Repr

/-- The body of the `for _, todo := range todos` loop of `indexHandler`, run
over the fetched list from the accumulator `(filteredTodos, completedCount)`. -/
def indexLoop (filter : String) : List Todo → List Todo × Int → List Todo × Int
  | [], acc => acc
  | todo :: rest, (filteredTodos, completedCount) =>
    let completedCount := if todo.Completed then completedCount + 1 else completedCount
    let filteredTodos :=
      if filter = "active" then
        if !todo.Completed then filteredTodos ++ [todo] else filteredTodos
      else if filter = "completed" then
        if todo.Completed then filteredTodos ++ [todo] else filteredTodos
      else filteredTodos ++ [todo]
    indexLoop filter rest (filteredTodos, completedCount)

/-- Function `renderError`: the page data holds the message only. -/
def renderError (message : String) : PageData :=
  { Todos := [], Filter := "", CompletedCount := 0, TotalCount := 0, ActiveCount := 0,
    Error := message, Success := "" }

/-- Handler `indexHandler`, up to the data given to `renderTemplate`.  The three
query values and the outcome of `fetchTodos` are inputs. -/
def indexHandler (filterQ successQ errorQ : String) (fetched : Except String (List Todo)) :
    PageData :=
  let filter := if filterQ = "" then "all" else filterQ
  match fetched with
  | .error err => renderError ("Failed to load todos: " ++ err)
  | .ok todos =>
    let r := indexLoop filter todos ([], 0)
    { Todos := r.1
      Filter := filter
      CompletedCount := r.2
      TotalCount := (todos.length : Int)
      ActiveCount := (todos.length : Int) - r.2
      Success := successQ
      Error := errorQ }

/-- White space in the sense of Go's `unicode.IsSpace`. -/
def isSpace (c : Char) : Bool :=
  let n := c.toNat
  (9 ≤ n && n ≤ 13) || n = 32 || n = 0x85 || n = 0xA0 || n = 0x1680 ||
    (0x2000 ≤ n && n ≤ 0x200A) || n = 0x2028 || n = 0x2029 || n = 0x202F ||
    n = 0x205F || n = 0x3000

/-- Library function `strings.TrimSpace`: leading and trailing white space removed. -/
def TrimSpace (s : String) : String :=
  String.mk ((s.data.dropWhile isSpace).reverse.dropWhile isSpace).reverse

/-- The values `r.FormValue` yields for the three fields the handlers read. -/
structure Form where
  title : String
  description : String
  priority : String
deriving DecidableEq, Repr

/-- What happens to one HTTP exchange between the frontend and the API. -/
inductive Link where
  | delivered
  | dropped
  | replyLost
deriving DecidableEq, Repr

/-- The `error` values of the API client functions. -/
inductive ApiError where
  | transport
  | status (code : Nat)
deriving DecidableEq, Repr

/-- The body the API binds from the JSON of a `CreateTodo`: the fields the
JSON does not carry keep their zero values. -/
def bindCreate (c : CreateTodo) : Backend.Todo :=
  { ID := 0, Title := c.Title, Description := c.Description, Completed := false,
    Priority := c.Priority, CreatedAt := zeroTime, UpdatedAt := zeroTime }

/-- The body the API binds from the JSON of an `UpdateTodo`: the fields the
JSON does not carry keep their zero values. -/
def bindUpdate (u : UpdateTodo) : Backend.Todo :=
  { ID := 0, Title := u.Title, Description := u.Description, Completed := false,
    Priority := u.Priority, CreatedAt := zeroTime, UpdatedAt := zeroTime }

/-- One exchange: the request either never arrives, or is handled and the
reply is lost, or is handled and the status comes back. `accept` is the
client function's test on the status code. -/
def exchange (link : Link) (s : Backend.Store) (handled : Backend.Store × Backend.Response)
    (accept : Nat → Bool) : Backend.Store × Option ApiError :=
  match link with
  | .dropped => (s, some .transport)
  | .replyLost => (handled.1, some .transport)
  | .delivered =>
    (handled.1, if accept handled.2.status then none else some (.status handled.2.status))

/-- Client function `createTodo`: POST to the API, `201` or `200` accepted. -/
def createTodo (link : Link) (s : Backend.Store) (now1 now2 : Time) (todo : CreateTodo) :
    Backend.Store × Option ApiError :=
  exchange link s (Backend.createTodo s now1 now2 (.ok (bindCreate todo)))
    (fun c => c = Backend.StatusCreated || c = Backend.StatusOK)

/-- Client function `updateTodo`: PUT to the API, only `200` accepted. -/
def updateTodo (link : Link) (s : Backend.Store) (now : Time) (id : Int) (todo : UpdateTodo) :
    Backend.Store × Option ApiError :=
  exchange link s (Backend.updateTodo s now (some id) (.ok (bindUpdate todo)))
    (fun c => c = Backend.StatusOK)

/-- Client function `toggleTodo`: PUT to the toggle route, only `200` accepted. -/
def toggleTodo (link : Link) (s : Backend.Store) (now : Time) (id : Int) :
    Backend.Store × Option ApiError :=
  exchange link s (Backend.toggleTodo s now (some id)) (fun c => c = Backend.StatusOK)

/-- Client function `deleteTodo`: DELETE to the API, `200` or `204` accepted. -/
def deleteTodo (link : Link) (s : Backend.Store) (id : Int) : Backend.Store × Option ApiError :=
  exchange link s (Backend.deleteTodo s (some id)) (fun c => c = Backend.StatusOK || c = 204)

/-- Handler `createTodoHandler`: the store after the request and the URL given
to `http.Redirect`. -/
def createTodoHandler (link : Link) (s : Backend.Store) (now1 now2 : Time)
    (form : Option Form) : Backend.Store × String :=
  match form with
  | none => (s, "/?error=Invalid+form+data")
  | some f =>
    let todo : CreateTodo :=
      { Title := TrimSpace f.title, Description := TrimSpace f.description,
        Priority := f.priority }
    if todo.Title = "" then (s, "/?error=Title+is+required")
    else
      let todo := if todo.Priority = "" then { todo with Priority := "medium" } else todo
      match createTodo link s now1 now2 todo with
      | (s1, some _) => (s1, "/?error=Failed+to+create+todo")
      | (s1, none) => (s1, "/?success=Todo+created+successfully")

/-- Handler `toggleTodoHandler`. -/
def toggleTodoHandler (link : Link) (s : Backend.Store) (now : Time) (idVar : Option Int)
    (filter : String) : Backend.Store × String :=
  match idVar with
  | none => (s, "/?error=Invalid+todo+ID")
  | some id =>
    match toggleTodo link s now id with
    | (s1, some _) => (s1, "/?error=Failed+to+toggle+todo")
    | (s1, none) =>
      let redirectURL := "/"
      let redirectURL := if filter ≠ "" then redirectURL ++ "?filter=" ++ filter else redirectURL
      (s1, redirectURL)

/-- Handler `updateTodoHandler`. -/
def updateTodoHandler (link : Link) (s : Backend.Store) (now : Time) (idVar : Option Int)
    (form : Option Form) (filter : String) : Backend.Store × String :=
  match idVar with
  | none => (s, "/?error=Invalid+todo+ID")
  | some id =>
    match form with
    | none => (s, "/?error=Invalid+form+data")
    | some f =>
      let todo : UpdateTodo :=
        { Title := TrimSpace f.title, Description := TrimSpace f.description,
          Priority := f.priority }
      if todo.Title = "" then (s, "/?error=Title+is+required")
      else
        match updateTodo link s now id todo with
        | (s1, some _) => (s1, "/?error=Failed+to+update+todo")
        | (s1, none) =>
          let redirectURL := "/?success=Todo+updated+successfully"
          let redirectURL :=
            if filter ≠ "" then redirectURL ++ "&filter=" ++ filter else redirectURL
          (s1, redirectURL)

/-- Handler `deleteTodoHandler`. -/
def deleteTodoHandler (link : Link) (s : Backend.Store) (idVar : Option Int)
    (filter : String) : Backend.Store × String :=
  match idVar with
  | none => (s, "/?error=Invalid+todo+ID")
  | some id =>
    match deleteTodo link s id with
    | (s1, some _) => (s1, "/?error=Failed+to+delete+todo")
    | (s1, none) =>
      let redirectURL := "/?success=Todo+deleted+successfully"
      let redirectURL :=
        if filter ≠ "" then redirectURL ++ "&filter=" ++ filter else redirectURL
      (s1, redirectURL)

/-- The pieces of a character list between occurrences of `sep`. -/
def splitOnChar (sep : Char) : List Char → List (List Char)
  | [] => [[]]
  | c :: cs =>
    if c = sep then [] :: splitOnChar sep cs
    else
      match splitOnChar sep cs with
      | [] => [[c]]
      | h :: t => (c :: h) :: t

/-- The value of the first `key=value` pair among the pairs of a query. -/
def lookupPair (key : List Char) : List (List Char) → Option (List Char)
  | [] => none
  | p :: ps =>
    if p.takeWhile (· ≠ '=') = key then some ((p.dropWhile (· ≠ '=')).drop 1)
    else lookupPair key ps

/-- The raw value a URL carries for a query key (what a handler reads back
with `r.URL.Query().Get(key)` for values that need no unescaping); `none`
when the URL has no such key. -/
def queryGet (url key : String) : Option String :=
  (lookupPair key.data (splitOnChar '&' ((url.data.dropWhile (· ≠ '?')).drop 1))).map String.mk

/-- The items the list page keeps for a filter value. -/
def selected (filter : String) (todos : List Todo) : List Todo :=
  if filter = "completed" then todos.filter (fun t => t.Completed)
  else if filter = "active" then todos.filter (fun t => !t.Completed)
  else todos

end Frontend

/-- A request log used to instantiate the theorems: create, delete the new
item, create again with a body that carries a stale id, toggle the seed item,
and a malformed update. -/
def sampleOps : List Backend.Op :=
  [ .create 5 5 (.ok ⟨1, "a", "", false, "", 0, 0⟩),
    .delete (some 2),
    .create 6 7 (.ok ⟨2, "b", "", true, "high", 0, 0⟩),
    .toggle 8 (some 1),
    .update 9 none (.error "EOF") ]

/-- The store after the sample request log: the seed item (toggled) and the
item with id 3. -/
def sampleStore : Backend.Store :=
  (Backend.run (Backend.seedData Backend.initStore 0 0) sampleOps).1

/-! ## Lemmas on the store -/

theorem wrapInt_succ (x : Int) (h1 : 1 ≤ x) (h2 : x < maxInt) : wrapInt (x + 1) = x + 1 := by
  unfold wrapInt
  unfold maxInt at h2
  omega

namespace Backend

theorem scanID_none_iff (id : Int) (ts : List Todo) :
    scanID id ts = none ↔ ∀ t ∈ ts, t.ID ≠ id := by
  induction ts with
  | nil => simp [scanID]
  | cons t rest ih =>
    by_cases h : t.ID = id
    · simp [scanID, h]
    · simp [scanID, h, ih]

theorem scanID_some (id : Int) (ts : List Todo) (i : Nat) (old : Todo)
    (h : scanID id ts = some (i, old)) : ts[i]? = some old ∧ old.ID = id := by
  induction ts generalizing i with
  | nil => simp [scanID] at h
  | cons t rest ih =>
    by_cases hid : t.ID = id
    · simp [scanID, hid] at h
      obtain ⟨rfl, rfl⟩ := h
      exact ⟨by simp, hid⟩
    · simp [scanID, hid] at h
      obtain ⟨j, hj, rfl⟩ := h
      obtain ⟨hu, huid⟩ := ih j hj
      exact ⟨by simpa using hu, huid⟩

theorem scanID_lt (id : Int) (ts : List Todo) (i : Nat) (old : Todo)
    (h : scanID id ts = some (i, old)) : i < ts.length := by
  have hget := (scanID_some id ts i old h).1
  rcases Nat.lt_or_ge i ts.length with hl | hl
  · exact hl
  · rw [List.getElem?_eq_none hl] at hget
    cases hget

theorem scanID_of_mem (id : Int) (ts : List Todo) (h : ∃ t ∈ ts, t.ID = id) :
    ∃ i old, scanID id ts = some (i, old) := by
  obtain ⟨t, ht, hid⟩ := h
  cases hs : scanID id ts with
  | none => exact absurd hid ((scanID_none_iff id ts).1 hs t ht)
  | some p => exact ⟨p.1, p.2, rfl⟩

theorem scanID_set_same (id : Int) (ts : List Todo) (i : Nat) (old new : Todo)
    (h : scanID id ts = some (i, old)) (hid : new.ID = old.ID) :
    scanID id (ts.set i new) = some (i, new) := by
  induction ts generalizing i with
  | nil => simp [scanID] at h
  | cons t rest ih =>
    by_cases htid : t.ID = id
    · simp [scanID, htid] at h
      obtain ⟨rfl, rfl⟩ := h
      simp [scanID, hid, htid]
    · simp [scanID, htid] at h
      obtain ⟨j, hj, rfl⟩ := h
      simp [scanID, htid, ih j hj]

theorem ids_set_same (ts : List Todo) (i : Nat) (old new : Todo) (h : ts[i]? = some old)
    (hid : new.ID = old.ID) : ids (ts.set i new) = ids ts := by
  induction ts generalizing i with
  | nil => simp
  | cons t rest ih =>
    cases i with
    | zero =>
      simp at h
      subst h
      simp [ids, hid]
    | succ j =>
      simp at h
      have := ih j h
      simp [ids] at this ⊢
      exact this

theorem mem_set_ID (ts : List Todo) (i : Nat) (old new : Todo) (h : ts[i]? = some old)
    (hid : new.ID = old.ID) (t : Todo) (ht : t ∈ ts.set i new) : t.ID ∈ ids ts := by
  have h1 : t.ID ∈ ids (ts.set i new) := List.mem_map_of_mem _ ht
  rwa [ids_set_same ts i old new h hid] at h1

theorem getElem_set_self (ts : List Todo) (i : Nat) (new : Todo) (h : i < ts.length) :
    (ts.set i new)[i]? = some new := by
  simp [List.getElem?_set, h]

theorem eraseAt_sublist (ts : List Todo) (i : Nat) :
    (ts.take i ++ ts.drop (i + 1)).Sublist ts := by
  have h := List.eraseIdx_sublist ts i
  rwa [List.eraseIdx_eq_take_drop_succ] at h

theorem erase_length (ts : List Todo) (i : Nat) (h : i < ts.length) :
    (ts.take i ++ ts.drop (i + 1)).length + 1 = ts.length := by
  simp only [List.length_append, List.length_take, List.length_drop]
  omega

theorem erase_eq_filter (N : Int) (ts : List Todo) (i : Nat) (old : Todo)
    (hnd : (ids ts).Nodup) (hscan : scanID N ts = some (i, old)) :
    ts.take i ++ ts.drop (i + 1) = ts.filter (fun t => decide (t.ID ≠ N)) := by
  induction ts generalizing i with
  | nil => simp [scanID] at hscan
  | cons t rest ih =>
    simp only [ids, List.map_cons, List.nodup_cons] at hnd
    by_cases hid : t.ID = N
    · simp [scanID, hid] at hscan
      obtain ⟨rfl, rfl⟩ := hscan
      have hall : ∀ u ∈ rest, u.ID ≠ N := by
        intro u hu heq
        exact hnd.1 (List.mem_map.2 ⟨u, hu, by rw [heq, hid]⟩)
      have hf : rest.filter (fun t => decide (t.ID ≠ N)) = rest := by
        rw [List.filter_eq_self]
        intro u hu
        simpa using hall u hu
      simp only [List.take_zero, List.nil_append, zero_add, List.drop_succ_cons, List.drop_zero]
      rw [List.filter_cons_of_neg (by simp [hid]), hf]
    · simp [scanID, hid] at hscan
      obtain ⟨j, hj, rfl⟩ := hscan
      have := ih j hnd.2 hj
      simp [hid, this]

/-! Case equations of the handlers. -/

theorem updateTodo_found (s : Store) (now : Time) (id : Int) (u : Todo) (i : Nat) (old : Todo)
    (hscan : scanID id s.todos = some (i, old)) :
    updateTodo s now (some id) (.ok u) =
      ({ todos := s.todos.set i
            ({ u with ID := id, CreatedAt := old.CreatedAt, UpdatedAt := now }),
         nextID := s.nextID },
        ⟨StatusOK, .todo ({ u with ID := id, CreatedAt := old.CreatedAt, UpdatedAt := now })⟩) := by
  simp [updateTodo, hscan]

theorem updateTodo_missing (s : Store) (now : Time) (id : Int) (u : Todo)
    (hscan : scanID id s.todos = none) :
    updateTodo s now (some id) (.ok u) = (s, ⟨StatusNotFound, .error "Todo not found"⟩) := by
  simp [updateTodo, hscan]

theorem toggleTodo_found (s : Store) (now : Time) (id : Int) (i : Nat) (old : Todo)
    (hscan : scanID id s.todos = some (i, old)) :
    toggleTodo s now (some id) =
      ({ todos := s.todos.set i
            ({ old with Completed := !old.Completed, UpdatedAt := now }),
         nextID := s.nextID },
        ⟨StatusOK, .todo ({ old with Completed := !old.Completed, UpdatedAt := now })⟩) := by
  simp [toggleTodo, hscan]

theorem toggleTodo_missing (s : Store) (now : Time) (id : Int)
    (hscan : scanID id s.todos = none) :
    toggleTodo s now (some id) = (s, ⟨StatusNotFound, .error "Todo not found"⟩) := by
  simp [toggleTodo, hscan]

theorem deleteTodo_found (s : Store) (id : Int) (i : Nat) (old : Todo)
    (hscan : scanID id s.todos = some (i, old)) :
    deleteTodo s (some id) =
      ({ todos := s.todos.take i ++ s.todos.drop (i + 1), nextID := s.nextID },
        ⟨StatusOK, .message "Todo deleted successfully"⟩) := by
  simp [deleteTodo, hscan]

theorem deleteTodo_missing (s : Store) (id : Int) (hscan : scanID id s.todos = none) :
    deleteTodo s (some id) = (s, ⟨StatusNotFound, .error "Todo not found"⟩) := by
  simp [deleteTodo, hscan]

theorem getTodoByID_missing (s : Store) (id : Int) (hscan : scanID id s.todos = none) :
    getTodoByID s (some id) = (s, ⟨StatusNotFound, .error "Todo not found"⟩) := by
  simp [getTodoByID, hscan]

theorem createTodo_ok (s : Store) (now1 now2 : Time) (b : Todo) :
    createTodo s now1 now2 (.ok b) =
      ({ todos := s.todos ++ [built s now1 now2 b], nextID := wrapInt (s.nextID + 1) },
        ⟨StatusCreated, .todo (built s now1 now2 b)⟩) := by
  unfold createTodo built
  by_cases h : b.Priority = "" <;> simp [h]

end Backend

namespace Backend

/-! The invariant is kept by every handler. -/

theorem Inv_update (s : Store) (now : Time) (idParam : Option Int) (body : Except String Todo)
    (hinv : Inv s) :
    Inv (updateTodo s now idParam body).1 ∧
      (updateTodo s now idParam body).1.nextID = s.nextID ∧
      createdID (updateTodo s now idParam body).2 = none := by
  cases idParam with
  | none => exact ⟨hinv, rfl, by simp [updateTodo, createdID, StatusBadRequest, StatusCreated]⟩
  | some id =>
    cases body with
    | error e => exact ⟨hinv, rfl, by simp [updateTodo, createdID, StatusBadRequest, StatusCreated]⟩
    | ok u =>
      cases hscan : scanID id s.todos with
      | none =>
        rw [updateTodo_missing s now id u hscan]
        exact ⟨hinv, rfl, by simp [createdID, StatusNotFound, StatusCreated]⟩
      | some p =>
        obtain ⟨i, old⟩ := p
        obtain ⟨hold, holdid⟩ := scanID_some id s.todos i old hscan
        rw [updateTodo_found s now id u i old hscan]
        refine ⟨⟨?_, ?_⟩, rfl, by simp [createdID, StatusOK, StatusCreated]⟩
        · intro t ht
          have hm := mem_set_ID s.todos i old _ hold (by simp [holdid]) t ht
          simp only [ids, List.mem_map] at hm
          obtain ⟨t0, ht0, hid0⟩ := hm
          rw [← hid0]
          exact hinv.1 t0 ht0
        · show (ids (s.todos.set i _)).Nodup
          rw [ids_set_same s.todos i old _ hold (by simp [holdid])]
          exact hinv.2

theorem Inv_toggle (s : Store) (now : Time) (idParam : Option Int) (hinv : Inv s) :
    Inv (toggleTodo s now idParam).1 ∧
      (toggleTodo s now idParam).1.nextID = s.nextID ∧
      createdID (toggleTodo s now idParam).2 = none := by
  cases idParam with
  | none => exact ⟨hinv, rfl, by simp [toggleTodo, createdID, StatusBadRequest, StatusCreated]⟩
  | some id =>
    cases hscan : scanID id s.todos with
    | none =>
      rw [toggleTodo_missing s now id hscan]
      exact ⟨hinv, rfl, by simp [createdID, StatusNotFound, StatusCreated]⟩
    | some p =>
      obtain ⟨i, old⟩ := p
      obtain ⟨hold, _⟩ := scanID_some id s.todos i old hscan
      rw [toggleTodo_found s now id i old hscan]
      refine ⟨⟨?_, ?_⟩, rfl, by simp [createdID, StatusOK, StatusCreated]⟩
      · intro t ht
        have hm := mem_set_ID s.todos i old
          ({ old with Completed := !old.Completed, UpdatedAt := now }) hold rfl t ht
        simp only [ids, List.mem_map] at hm
        obtain ⟨t0, ht0, hid0⟩ := hm
        rw [← hid0]
        exact hinv.1 t0 ht0
      · show (ids (s.todos.set i _)).Nodup
        rw [ids_set_same s.todos i old
          ({ old with Completed := !old.Completed, UpdatedAt := now }) hold rfl]
        exact hinv.2

theorem Inv_delete (s : Store) (idParam : Option Int) (hinv : Inv s) :
    Inv (deleteTodo s idParam).1 ∧
      (deleteTodo s idParam).1.nextID = s.nextID ∧
      createdID (deleteTodo s idParam).2 = none := by
  cases idParam with
  | none => exact ⟨hinv, rfl, by simp [deleteTodo, createdID, StatusBadRequest, StatusCreated]⟩
  | some id =>
    cases hscan : scanID id s.todos with
    | none =>
      rw [deleteTodo_missing s id hscan]
      exact ⟨hinv, rfl, by simp [createdID, StatusNotFound, StatusCreated]⟩
    | some p =>
      obtain ⟨i, old⟩ := p
      rw [deleteTodo_found s id i old hscan]
      have hsub := eraseAt_sublist s.todos i
      refine ⟨⟨?_, ?_⟩, rfl, by simp [createdID, StatusOK, StatusCreated]⟩
      · intro t ht
        exact hinv.1 t (hsub.subset ht)
      · exact hinv.2.sublist (hsub.map _)

theorem Inv_create (s : Store) (now1 now2 : Time) (body : Except String Todo)
    (hinv : Inv s) (h1 : 1 ≤ s.nextID) (h2 : s.nextID < maxInt) :
    Inv (createTodo s now1 now2 body).1 ∧
      s.nextID ≤ (createTodo s now1 now2 body).1.nextID ∧
      (createTodo s now1 now2 body).1.nextID ≤ s.nextID + 1 ∧
      ∀ id, createdID (createTodo s now1 now2 body).2 = some id →
        id = s.nextID ∧ (createTodo s now1 now2 body).1.nextID = s.nextID + 1 := by
  cases body with
  | error e =>
    refine ⟨hinv, le_refl _, by simp [createTodo], ?_⟩
    intro id hid
    simp [createTodo, createdID, StatusBadRequest, StatusCreated] at hid
  | ok b =>
    rw [createTodo_ok, wrapInt_succ s.nextID h1 h2]
    have hID : (built s now1 now2 b).ID = s.nextID := rfl
    refine ⟨⟨?_, ?_⟩, by simp, le_refl _, ?_⟩
    · intro t ht
      simp only [List.mem_append, List.mem_singleton] at ht
      show t.ID < s.nextID + 1
      rcases ht with ht | ht
      · have := hinv.1 t ht
        omega
      · subst ht
        rw [hID]
        omega
    · show (ids (s.todos ++ [_])).Nodup
      simp only [ids, List.map_append, List.map_cons, List.map_nil, hID]
      rw [List.nodup_append]
      refine ⟨hinv.2, List.nodup_singleton _, ?_⟩
      intro a ha hb
      simp only [List.mem_singleton] at hb
      simp only [List.mem_map] at ha
      obtain ⟨t0, ht0, hid0⟩ := ha
      have := hinv.1 t0 ht0
      omega
    · intro id hid
      simp [createdID, hID] at hid
      exact ⟨hid.symm, rfl⟩


theorem step_inv (s : Store) (op : Op) (hinv : Inv s) (h1 : 1 ≤ s.nextID)
    (h2 : s.nextID < maxInt) :
    Inv (step s op).1 ∧ s.nextID ≤ (step s op).1.nextID ∧
      (step s op).1.nextID ≤ s.nextID + 1 ∧
      ∀ id, createdID (step s op).2 = some id →
        id = s.nextID ∧ (step s op).1.nextID = s.nextID + 1 := by
  cases op with
  | create now1 now2 body => exact Inv_create s now1 now2 body hinv h1 h2
  | update now idParam body =>
    obtain ⟨ha, hb, hc⟩ := Inv_update s now idParam body hinv
    refine ⟨ha, ?_, ?_, ?_⟩
    · show s.nextID ≤ (updateTodo s now idParam body).1.nextID
      omega
    · show (updateTodo s now idParam body).1.nextID ≤ s.nextID + 1
      omega
    · intro id hid
      have : createdID (updateTodo s now idParam body).2 = some id := hid
      rw [hc] at this
      cases this
  | toggle now idParam =>
    obtain ⟨ha, hb, hc⟩ := Inv_toggle s now idParam hinv
    refine ⟨ha, ?_, ?_, ?_⟩
    · show s.nextID ≤ (toggleTodo s now idParam).1.nextID
      omega
    · show (toggleTodo s now idParam).1.nextID ≤ s.nextID + 1
      omega
    · intro id hid
      have : createdID (toggleTodo s now idParam).2 = some id := hid
      rw [hc] at this
      cases this
  | delete idParam =>
    obtain ⟨ha, hb, hc⟩ := Inv_delete s idParam hinv
    refine ⟨ha, ?_, ?_, ?_⟩
    · show s.nextID ≤ (deleteTodo s idParam).1.nextID
      omega
    · show (deleteTodo s idParam).1.nextID ≤ s.nextID + 1
      omega
    · intro id hid
      have : createdID (deleteTodo s idParam).2 = some id := hid
      rw [hc] at this
      cases this

theorem run_inv (ops : List Op) : ∀ (s : Store), Inv s → 1 ≤ s.nextID →
    s.nextID + (ops.length : Int) ≤ maxInt →
    Inv (run s ops).1 ∧ s.nextID ≤ (run s ops).1.nextID ∧
      (∀ id ∈ createdIDs (run s ops).2, s.nextID ≤ id) ∧
      (createdIDs (run s ops).2).Pairwise (· < ·) := by
  induction ops with
  | nil =>
    intro s hinv _ _
    exact ⟨hinv, le_refl _, by simp [run, createdIDs], by simp [run, createdIDs]⟩
  | cons op rest ih =>
    intro s hinv h1 h2
    simp only [List.length_cons, Nat.cast_add, Nat.cast_one] at h2
    obtain ⟨ha, hb, hc, hd⟩ := step_inv s op hinv h1 (by omega)
    obtain ⟨ia, ib, ic, id_⟩ := ih (step s op).1 ha (by omega) (by omega)
    have hrun1 : (run s (op :: rest)).1 = (run (step s op).1 rest).1 := rfl
    have hrun2 : (run s (op :: rest)).2 = (step s op).2 :: (run (step s op).1 rest).2 := rfl
    rw [hrun1, hrun2]
    refine ⟨ia, by omega, ?_, ?_⟩
    · intro x hx
      simp only [createdIDs, List.filterMap_cons] at hx
      cases hcr : createdID (step s op).2 with
      | none =>
        rw [hcr] at hx
        have := ic x hx
        omega
      | some y =>
        rw [hcr] at hx
        simp only [List.mem_cons] at hx
        rcases hx with hx | hx
        · have := (hd y hcr).1
          omega
        · have := ic x hx
          omega
    · simp only [createdIDs, List.filterMap_cons]
      cases hcr : createdID (step s op).2 with
      | none => exact id_
      | some y =>
        simp only [List.pairwise_cons]
        refine ⟨?_, id_⟩
        intro x hx
        have := ic x hx
        have := hd y hcr
        omega

theorem seedData_init (now1 now2 : Time) :
    Inv (seedData initStore now1 now2) ∧ (seedData initStore now1 now2).nextID = 2 ∧
      ids (seedData initStore now1 now2).todos = [1] := by
  have hw : wrapInt 2 = 2 := by decide
  refine ⟨⟨?_, ?_⟩, ?_, ?_⟩
  · intro t ht
    simp only [seedData, initStore, List.mem_singleton] at ht
    subst ht
    simp [seedData, initStore, hw]
  · simp [seedData, initStore, ids]
  · simp [seedData, initStore, hw]
  · simp [seedData, initStore, ids]

theorem bound_cast (n : Nat) (h : n + 2 < 2 ^ 63) : (2 : Int) + (n : Int) ≤ maxInt := by
  unfold maxInt
  omega

theorem Reachable.inv {s : Store} (h : Reachable s) : Inv s := by
  obtain ⟨now1, now2, ops, hb, rfl⟩ := h
  obtain ⟨hi, hn, _⟩ := seedData_init now1 now2
  exact (run_inv ops _ hi (by omega) (by rw [hn]; exact bound_cast _ hb)).1

end Backend

/-! ## Lemmas on the frontend -/

namespace Frontend

theorem indexLoop_eq (filter : String) (todos : List Todo) :
    ∀ (acc : List Todo) (n : Int),
      indexLoop filter todos (acc, n) =
        (acc ++ selected filter todos, n + ((todos.filter (fun t => t.Completed)).length : Int)) := by
  induction todos with
  | nil =>
    intro acc n
    simp [indexLoop, selected]
  | cons t rest ih =>
    intro acc n
    simp only [indexLoop]
    rw [ih]
    by_cases hc : filter = "completed"
    · cases hcomp : t.Completed
      · simp [selected, hc, hcomp]
      · simp [selected, hc, hcomp]
        omega
    · by_cases ha : filter = "active"
      · cases hcomp : t.Completed
        · simp [selected, hc, ha, hcomp]
        · simp [selected, hc, ha, hcomp]
          omega
      · cases hcomp : t.Completed
        · simp [selected, hc, ha, hcomp]
        · simp [selected, hc, ha, hcomp]
          omega

theorem exchange_ok_iff (link : Link) (s : Backend.Store)
    (handled : Backend.Store × Backend.Response) (accept : Nat → Bool) :
    (exchange link s handled accept).2 = none ↔
      (link = .delivered ∧ accept handled.2.status = true) := by
  cases link <;> simp [exchange]

theorem backend_toggle_status (s : Backend.Store) (now : Time) (id : Int) :
    (Backend.toggleTodo s now (some id)).2.status = Backend.StatusOK ↔
      ∃ t ∈ s.todos, t.ID = id := by
  cases hscan : Backend.scanID id s.todos with
  | none =>
    rw [Backend.toggleTodo_missing s now id hscan]
    have hn := (Backend.scanID_none_iff id s.todos).1 hscan
    constructor
    · intro h
      simp [Backend.StatusNotFound, Backend.StatusOK] at h
    · rintro ⟨t, ht, hid⟩
      exact absurd hid (hn t ht)
  | some p =>
    obtain ⟨i, old⟩ := p
    obtain ⟨hold, holdid⟩ := Backend.scanID_some id s.todos i old hscan
    rw [Backend.toggleTodo_found s now id i old hscan]
    exact ⟨fun _ => ⟨old, List.getElem?_mem hold, holdid⟩, fun _ => rfl⟩

theorem backend_update_status (s : Backend.Store) (now : Time) (id : Int) (u : Backend.Todo) :
    (Backend.updateTodo s now (some id) (.ok u)).2.status = Backend.StatusOK ↔
      ∃ t ∈ s.todos, t.ID = id := by
  cases hscan : Backend.scanID id s.todos with
  | none =>
    rw [Backend.updateTodo_missing s now id u hscan]
    have hn := (Backend.scanID_none_iff id s.todos).1 hscan
    constructor
    · intro h
      simp [Backend.StatusNotFound, Backend.StatusOK] at h
    · rintro ⟨t, ht, hid⟩
      exact absurd hid (hn t ht)
  | some p =>
    obtain ⟨i, old⟩ := p
    obtain ⟨hold, holdid⟩ := Backend.scanID_some id s.todos i old hscan
    rw [Backend.updateTodo_found s now id u i old hscan]
    exact ⟨fun _ => ⟨old, List.getElem?_mem hold, holdid⟩, fun _ => rfl⟩

theorem backend_delete_status (s : Backend.Store) (id : Int) :
    ((Backend.deleteTodo s (some id)).2.status = Backend.StatusOK ∨
        (Backend.deleteTodo s (some id)).2.status = 204) ↔
      ∃ t ∈ s.todos, t.ID = id := by
  cases hscan : Backend.scanID id s.todos with
  | none =>
    rw [Backend.deleteTodo_missing s id hscan]
    have hn := (Backend.scanID_none_iff id s.todos).1 hscan
    constructor
    · intro h
      simp [Backend.StatusNotFound, Backend.StatusOK] at h
    · rintro ⟨t, ht, hid⟩
      exact absurd hid (hn t ht)
  | some p =>
    obtain ⟨i, old⟩ := p
    obtain ⟨hold, holdid⟩ := Backend.scanID_some id s.todos i old hscan
    rw [Backend.deleteTodo_found s id i old hscan]
    exact ⟨fun _ => ⟨old, List.getElem?_mem hold, holdid⟩, fun _ => Or.inl rfl⟩

theorem createTodo_ok_iff (link : Link) (s : Backend.Store) (now1 now2 : Time) (c : CreateTodo) :
    (createTodo link s now1 now2 c).2 = none ↔ link = .delivered := by
  unfold createTodo
  rw [exchange_ok_iff, Backend.createTodo_ok]
  simp

theorem toggleTodo_ok_iff (link : Link) (s : Backend.Store) (now : Time) (id : Int) :
    (toggleTodo link s now id).2 = none ↔ (link = .delivered ∧ ∃ t ∈ s.todos, t.ID = id) := by
  unfold toggleTodo
  rw [exchange_ok_iff, ← backend_toggle_status s now id]
  simp

theorem updateTodo_ok_iff (link : Link) (s : Backend.Store) (now : Time) (id : Int)
    (u : UpdateTodo) :
    (updateTodo link s now id u).2 = none ↔ (link = .delivered ∧ ∃ t ∈ s.todos, t.ID = id) := by
  unfold updateTodo
  rw [exchange_ok_iff, ← backend_update_status s now id (bindUpdate u)]
  simp

theorem deleteTodo_ok_iff (link : Link) (s : Backend.Store) (id : Int) :
    (deleteTodo link s id).2 = none ↔ (link = .delivered ∧ ∃ t ∈ s.todos, t.ID = id) := by
  unfold deleteTodo
  rw [exchange_ok_iff, ← backend_delete_status s id]
  simp

end Frontend

/-! ## Claims on the store -/

/-- C1: from the seeded state, along any sequence of create, update, toggle and
delete requests short of counter wrap-around, the seed id followed by the ids
assigned by the successful creates is a strictly increasing list starting at 1;
hence no id is assigned twice, whatever was deleted in between and whatever id
the request bodies carried. -/
theorem created_ids_strictly_increasing (now1 now2 : Time) (ops : List Backend.Op)
    (hbound : ops.length + 2 < 2 ^ 63) :
    Backend.ids (Backend.seedData Backend.initStore now1 now2).todos = [1] ∧
    List.Pairwise (· < ·)
      (Backend.ids (Backend.seedData Backend.initStore now1 now2).todos ++
        Backend.createdIDs
          (Backend.run (Backend.seedData Backend.initStore now1 now2) ops).2) := by
  obtain ⟨hi, hn, hs⟩ := Backend.seedData_init now1 now2
  obtain ⟨_, _, hge, hpw⟩ :=
    Backend.run_inv ops _ hi (by omega) (by rw [hn]; exact Backend.bound_cast _ hbound)
  refine ⟨hs, ?_⟩
  rw [hs, List.singleton_append, List.pairwise_cons]
  refine ⟨?_, hpw⟩
  intro x hx
  have := hge x hx
  omega

/-- C2: in every state reached from the seeded state by a sequence of create,
update, toggle and delete requests (successful or failing) short of counter
wrap-around, the ids of the stored items are pairwise distinct. -/
theorem reachable_ids_distinct (now1 now2 : Time) (ops : List Backend.Op)
    (hbound : ops.length + 2 < 2 ^ 63) :
    List.Pairwise (· ≠ ·)
      (Backend.ids (Backend.run (Backend.seedData Backend.initStore now1 now2) ops).1.todos) := by
  obtain ⟨hi, hn, _⟩ := Backend.seedData_init now1 now2
  exact (Backend.run_inv ops _ hi (by omega)
    (by rw [hn]; exact Backend.bound_cast _ hbound)).1.2

/-- Instance of C1 on the sample request log (ids 1, 2, 3 in that order). -/
theorem created_ids_strictly_increasing_witness :
    sampleOps.length + 2 < 2 ^ 63 ∧
    (Backend.ids (Backend.seedData Backend.initStore 0 0).todos = [1] ∧
      List.Pairwise (· < ·)
        (Backend.ids (Backend.seedData Backend.initStore 0 0).todos ++
          Backend.createdIDs
            (Backend.run (Backend.seedData Backend.initStore 0 0) sampleOps).2)) :=
  ⟨by decide, created_ids_strictly_increasing 0 0 sampleOps (by decide)⟩

/-- Instance of C2 on the sample request log (stored ids 1 and 3). -/
theorem reachable_ids_distinct_witness :
    sampleOps.length + 2 < 2 ^ 63 ∧
    List.Pairwise (· ≠ ·)
      (Backend.ids (Backend.run (Backend.seedData Backend.initStore 0 0) sampleOps).1.todos) :=
  ⟨by decide, reachable_ids_distinct 0 0 sampleOps (by decide)⟩

/-- C3: a create request with a well-formed body answers `201` with the item
it appended to the collection; the item's priority is `"medium"` when the
body's priority is empty and the body's priority otherwise, its completed flag
is the body's, and a body decoded from JSON without a `completed` field (the
frontend's `CreateTodo`) yields completed `false`. -/
theorem createTodo_priority_default (s : Backend.Store) (now1 now2 : Time)
    (body : Backend.Todo) (c : Frontend.CreateTodo) :
    (∃ t : Backend.Todo,
      Backend.createTodo s now1 now2 (.ok body)
        = ({ todos := s.todos ++ [t], nextID := wrapInt (s.nextID + 1) },
            ⟨Backend.StatusCreated, .todo t⟩) ∧
      t.Priority = (if body.Priority = "" then "medium" else body.Priority) ∧
      t.Completed = body.Completed ∧
      t.Title = body.Title ∧ t.Description = body.Description) ∧
    (∃ t : Backend.Todo,
      Backend.createTodo s now1 now2 (.ok (Frontend.bindCreate c))
        = ({ todos := s.todos ++ [t], nextID := wrapInt (s.nextID + 1) },
            ⟨Backend.StatusCreated, .todo t⟩) ∧
      t.Completed = false ∧
      t.Priority = (if c.Priority = "" then "medium" else c.Priority)) := by
  refine ⟨⟨Backend.built s now1 now2 body, Backend.createTodo_ok s now1 now2 body,
      rfl, rfl, rfl, rfl⟩,
    ⟨Backend.built s now1 now2 (Frontend.bindCreate c),
      Backend.createTodo_ok s now1 now2 _, rfl, rfl⟩⟩

/-- C4, as stated, fails: the seed item written at clock reading 10 and toggled
at the same clock reading keeps `UpdatedAt = 10`; the toggle succeeds and
`UpdatedAt` has not advanced. -/
theorem toggle_same_reading_no_advance :
    Backend.updatedAtOf (Backend.seedData Backend.initStore 10 10) 1 = some 10 ∧
    (Backend.toggleTodo (Backend.seedData Backend.initStore 10 10) 10 (some 1)).2.status
      = Backend.StatusOK ∧
    Backend.updatedAtOf
      (Backend.toggleTodo (Backend.seedData Backend.initStore 10 10) 10 (some 1)).1 1
      = some 10 ∧
    Backend.advanced (Backend.seedData Backend.initStore 10 10)
      (Backend.toggleTodo (Backend.seedData Backend.initStore 10 10) 10 (some 1)).1 1
      = false := by
  decide

/-- C4, amended: for an id present in the store, two successive toggles both
succeed and act on the same item (the first one with that id): after the first
the item differs from the original in `Completed` (negated) and `UpdatedAt`
(the first clock reading), after the second only in `UpdatedAt` (the second
clock reading), every other item and the counter being untouched.  Each toggle
sets `UpdatedAt` to its clock reading, so `UpdatedAt` advances at a toggle
exactly when that reading is later than the value stored before it. -/
theorem toggle_twice_self_inverse (s : Backend.Store) (now1 now2 : Time) (id : Int)
    (hpresent : ∃ t ∈ s.todos, t.ID = id) :
    ∃ (i : Nat) (old : Backend.Todo),
      Backend.scanID id s.todos = some (i, old) ∧ s.todos[i]? = some old ∧ old.ID = id ∧
      Backend.toggleTodo s now1 (some id) =
        ({ todos := s.todos.set i ({ old with Completed := !old.Completed, UpdatedAt := now1 }),
           nextID := s.nextID },
          ⟨Backend.StatusOK,
            .todo ({ old with Completed := !old.Completed, UpdatedAt := now1 })⟩) ∧
      Backend.toggleTodo (Backend.toggleTodo s now1 (some id)).1 now2 (some id) =
        ({ todos := s.todos.set i ({ old with UpdatedAt := now2 }), nextID := s.nextID },
          ⟨Backend.StatusOK, .todo ({ old with UpdatedAt := now2 })⟩) ∧
      (∃ (t1 t2 : Backend.Todo),
        (Backend.toggleTodo s now1 (some id)).1.todos[i]? = some t1 ∧
        (Backend.toggleTodo (Backend.toggleTodo s now1 (some id)).1 now2 (some id)).1.todos[i]?
          = some t2 ∧
        t1.Completed = (!old.Completed) ∧ t2.Completed = old.Completed ∧
        t1.UpdatedAt = now1 ∧ t2.UpdatedAt = now2) ∧
      Backend.advanced s (Backend.toggleTodo s now1 (some id)).1 id
        = decide (old.UpdatedAt < now1) ∧
      Backend.advanced (Backend.toggleTodo s now1 (some id)).1
          (Backend.toggleTodo (Backend.toggleTodo s now1 (some id)).1 now2 (some id)).1 id
        = decide (now1 < now2) := by
  obtain ⟨i, old, hscan⟩ := Backend.scanID_of_mem id s.todos hpresent
  obtain ⟨hold, holdid⟩ := Backend.scanID_some id s.todos i old hscan
  have h1 := Backend.toggleTodo_found s now1 id i old hscan
  have hlt := Backend.scanID_lt id s.todos i old hscan
  have hscan2 := Backend.scanID_set_same id s.todos i old
    ({ old with Completed := !old.Completed, UpdatedAt := now1 }) hscan rfl
  have hscan3 := Backend.scanID_set_same id s.todos i old
    ({ old with UpdatedAt := now2 }) hscan rfl
  have h2 : Backend.toggleTodo (Backend.toggleTodo s now1 (some id)).1 now2 (some id) =
      ({ todos := s.todos.set i ({ old with UpdatedAt := now2 }), nextID := s.nextID },
        ⟨Backend.StatusOK, .todo ({ old with UpdatedAt := now2 })⟩) := by
    rw [h1, Backend.toggleTodo_found _ now2 id i _ hscan2]
    simp
  refine ⟨i, old, hscan, hold, holdid, h1, h2,
    ⟨{ old with Completed := !old.Completed, UpdatedAt := now1 }, { old with UpdatedAt := now2 },
      ?_, ?_, rfl, rfl, rfl, rfl⟩, ?_, ?_⟩
  · rw [h1]
    exact Backend.getElem_set_self s.todos i _ hlt
  · rw [h2]
    exact Backend.getElem_set_self s.todos i _ hlt
  · rw [h1]
    simp [Backend.advanced, Backend.updatedAtOf, hscan, hscan2]
  · rw [h2, h1]
    simp [Backend.advanced, Backend.updatedAtOf, hscan2, hscan3]

/-- Instance of C4: the item with id 3 of the sample store (written at clock
reading 7), toggled at clock readings 10 and 11. -/
theorem toggle_twice_self_inverse_witness :
    (∃ t ∈ sampleStore.todos, t.ID = 3) ∧
    ∃ (i : Nat) (old : Backend.Todo),
      Backend.scanID 3 sampleStore.todos = some (i, old) ∧ sampleStore.todos[i]? = some old ∧
      old.ID = 3 ∧
      Backend.toggleTodo sampleStore 10 (some 3) =
        ({ todos := sampleStore.todos.set i
              ({ old with Completed := !old.Completed, UpdatedAt := 10 }),
           nextID := sampleStore.nextID },
          ⟨Backend.StatusOK,
            .todo ({ old with Completed := !old.Completed, UpdatedAt := 10 })⟩) ∧
      Backend.toggleTodo (Backend.toggleTodo sampleStore 10 (some 3)).1 11 (some 3) =
        ({ todos := sampleStore.todos.set i ({ old with UpdatedAt := 11 }),
           nextID := sampleStore.nextID },
          ⟨Backend.StatusOK, .todo ({ old with UpdatedAt := 11 })⟩) ∧
      (∃ (t1 t2 : Backend.Todo),
        (Backend.toggleTodo sampleStore 10 (some 3)).1.todos[i]? = some t1 ∧
        (Backend.toggleTodo (Backend.toggleTodo sampleStore 10 (some 3)).1 11
          (some 3)).1.todos[i]? = some t2 ∧
        t1.Completed = (!old.Completed) ∧ t2.Completed = old.Completed ∧
        t1.UpdatedAt = 10 ∧ t2.UpdatedAt = 11) ∧
      Backend.advanced sampleStore (Backend.toggleTodo sampleStore 10 (some 3)).1 3
        = decide (old.UpdatedAt < 10) ∧
      Backend.advanced (Backend.toggleTodo sampleStore 10 (some 3)).1
          (Backend.toggleTodo (Backend.toggleTodo sampleStore 10 (some 3)).1 11 (some 3)).1 3
        = decide ((10 : Time) < 11) :=
  ⟨by decide, toggle_twice_self_inverse sampleStore 10 11 3 (by decide)⟩

/-- C5, as stated, fails: the seed item written at clock reading 10 and fully
updated at the same clock reading keeps `UpdatedAt = 10`; the update succeeds
and `UpdatedAt` has not advanced. -/
theorem update_same_reading_no_advance :
    Backend.updatedAtOf (Backend.seedData Backend.initStore 10 10) 1 = some 10 ∧
    (Backend.updateTodo (Backend.seedData Backend.initStore 10 10) 10 (some 1)
      (.ok ⟨0, "t", "d", true, "low", 0, 0⟩)).2.status = Backend.StatusOK ∧
    Backend.updatedAtOf
      (Backend.updateTodo (Backend.seedData Backend.initStore 10 10) 10 (some 1)
        (.ok ⟨0, "t", "d", true, "low", 0, 0⟩)).1 1 = some 10 ∧
    Backend.advanced (Backend.seedData Backend.initStore 10 10)
      (Backend.updateTodo (Backend.seedData Backend.initStore 10 10) 10 (some 1)
        (.ok ⟨0, "t", "d", true, "low", 0, 0⟩)).1 1 = false := by
  decide

/-- C5, amended: for an id present in the store and a well-formed body, the
full update answers `200` and overwrites the first item with that id, at its
position, by the body's title, description, priority and completed flag, with
the id and `CreatedAt` of the stored item (whatever the body carried) and
`UpdatedAt` the clock reading; the length, every other position and the
counter are unchanged.  `UpdatedAt` advances exactly when the clock reading is
later than the value stored before. -/
theorem updateTodo_frame (s : Backend.Store) (now : Time) (id : Int) (body : Backend.Todo)
    (hpresent : ∃ t ∈ s.todos, t.ID = id) :
    ∃ (i : Nat) (old : Backend.Todo),
      Backend.scanID id s.todos = some (i, old) ∧ s.todos[i]? = some old ∧ old.ID = id ∧
      Backend.updateTodo s now (some id) (.ok body) =
        ({ todos := s.todos.set i
              ⟨old.ID, body.Title, body.Description, body.Completed, body.Priority,
                old.CreatedAt, now⟩,
           nextID := s.nextID },
          ⟨Backend.StatusOK,
            .todo ⟨old.ID, body.Title, body.Description, body.Completed, body.Priority,
              old.CreatedAt, now⟩⟩) ∧
      (Backend.updateTodo s now (some id) (.ok body)).1.todos.length = s.todos.length ∧
      (Backend.updateTodo s now (some id) (.ok body)).1.todos[i]? =
        some ⟨old.ID, body.Title, body.Description, body.Completed, body.Priority,
          old.CreatedAt, now⟩ ∧
      (∀ j, j ≠ i →
        (Backend.updateTodo s now (some id) (.ok body)).1.todos[j]? = s.todos[j]?) ∧
      Backend.advanced s (Backend.updateTodo s now (some id) (.ok body)).1 id
        = decide (old.UpdatedAt < now) := by
  obtain ⟨i, old, hscan⟩ := Backend.scanID_of_mem id s.todos hpresent
  obtain ⟨hold, holdid⟩ := Backend.scanID_some id s.todos i old hscan
  have h1 := Backend.updateTodo_found s now id body i old hscan
  have h2 : Backend.updateTodo s now (some id) (.ok body) =
      ({ todos := s.todos.set i
            ⟨old.ID, body.Title, body.Description, body.Completed, body.Priority,
              old.CreatedAt, now⟩,
         nextID := s.nextID },
        ⟨Backend.StatusOK,
          .todo ⟨old.ID, body.Title, body.Description, body.Completed, body.Priority,
            old.CreatedAt, now⟩⟩) := by
    rw [h1, holdid]
  have hscan2 := Backend.scanID_set_same id s.todos i old
    ⟨old.ID, body.Title, body.Description, body.Completed, body.Priority, old.CreatedAt, now⟩
    hscan rfl
  refine ⟨i, old, hscan, hold, holdid, h2, ?_, ?_, ?_, ?_⟩
  · rw [h2]
    simp
  · rw [h2]
    exact Backend.getElem_set_self s.todos i _ (Backend.scanID_lt id s.todos i old hscan)
  · intro j hj
    rw [h2]
    simp [List.getElem?_set, Ne.symm hj]
  · rw [h2]
    simp [Backend.advanced, Backend.updatedAtOf, hscan, hscan2]

/-- Instance of C5: the item with id 3 of the sample store, updated with a
body that carries id 77 and its own timestamps. -/
theorem updateTodo_frame_witness :
    (∃ t ∈ sampleStore.todos, t.ID = 3) ∧
    ∃ (i : Nat) (old : Backend.Todo),
      Backend.scanID 3 sampleStore.todos = some (i, old) ∧ sampleStore.todos[i]? = some old ∧
      old.ID = 3 ∧
      Backend.updateTodo sampleStore 10 (some 3) (.ok ⟨77, "t", "d", false, "low", 99, 98⟩) =
        ({ todos := sampleStore.todos.set i ⟨old.ID, "t", "d", false, "low", old.CreatedAt, 10⟩,
           nextID := sampleStore.nextID },
          ⟨Backend.StatusOK, .todo ⟨old.ID, "t", "d", false, "low", old.CreatedAt, 10⟩⟩) ∧
      (Backend.updateTodo sampleStore 10 (some 3)
        (.ok ⟨77, "t", "d", false, "low", 99, 98⟩)).1.todos.length = sampleStore.todos.length ∧
      (Backend.updateTodo sampleStore 10 (some 3)
        (.ok ⟨77, "t", "d", false, "low", 99, 98⟩)).1.todos[i]? =
        some ⟨old.ID, "t", "d", false, "low", old.CreatedAt, 10⟩ ∧
      (∀ j, j ≠ i →
        (Backend.updateTodo sampleStore 10 (some 3)
          (.ok ⟨77, "t", "d", false, "low", 99, 98⟩)).1.todos[j]? = sampleStore.todos[j]?) ∧
      Backend.advanced sampleStore
        (Backend.updateTodo sampleStore 10 (some 3)
          (.ok ⟨77, "t", "d", false, "low", 99, 98⟩)).1 3 = decide (old.UpdatedAt < 10) :=
  ⟨by decide, updateTodo_frame sampleStore 10 3 ⟨77, "t", "d", false, "low", 99, 98⟩
    (by decide)⟩

/-- C7: in a reachable state, a delete of id `N` answered `200` leaves exactly
the items whose id is not `N`, in their original order, one item fewer than
before, the counter unchanged; and a get of `N` in the resulting state is
answered `404`. -/
theorem deleteTodo_removes_exactly (s : Backend.Store) (N : Int) (hreach : Backend.Reachable s)
    (hok : (Backend.deleteTodo s (some N)).2.status = Backend.StatusOK) :
    (Backend.deleteTodo s (some N)).1.todos = s.todos.filter (fun t => decide (t.ID ≠ N)) ∧
    (Backend.deleteTodo s (some N)).1.todos.length + 1 = s.todos.length ∧
    (Backend.deleteTodo s (some N)).1.nextID = s.nextID ∧
    Backend.getTodoByID (Backend.deleteTodo s (some N)).1 (some N) =
      ((Backend.deleteTodo s (some N)).1,
        ⟨Backend.StatusNotFound, .error "Todo not found"⟩) := by
  have hinv := hreach.inv
  cases hscan : Backend.scanID N s.todos with
  | none =>
    rw [Backend.deleteTodo_missing s N hscan] at hok
    simp [Backend.StatusNotFound, Backend.StatusOK] at hok
  | some p =>
    obtain ⟨i, old⟩ := p
    have hlt := Backend.scanID_lt N s.todos i old hscan
    have hf := Backend.erase_eq_filter N s.todos i old hinv.2 hscan
    rw [Backend.deleteTodo_found s N i old hscan]
    refine ⟨hf, Backend.erase_length s.todos i hlt, rfl, ?_⟩
    apply Backend.getTodoByID_missing
    show Backend.scanID N (s.todos.take i ++ s.todos.drop (i + 1)) = none
    rw [hf, Backend.scanID_none_iff]
    intro t ht
    simpa using (List.mem_filter.1 ht).2

/-- Instance of C7: deleting id 3 from the sample store. -/
theorem deleteTodo_removes_exactly_witness :
    Backend.Reachable sampleStore ∧
    (Backend.deleteTodo sampleStore (some 3)).2.status = Backend.StatusOK ∧
    ((Backend.deleteTodo sampleStore (some 3)).1.todos
        = sampleStore.todos.filter (fun t => decide (t.ID ≠ 3)) ∧
      (Backend.deleteTodo sampleStore (some 3)).1.todos.length + 1 = sampleStore.todos.length ∧
      (Backend.deleteTodo sampleStore (some 3)).1.nextID = sampleStore.nextID ∧
      Backend.getTodoByID (Backend.deleteTodo sampleStore (some 3)).1 (some 3) =
        ((Backend.deleteTodo sampleStore (some 3)).1,
          ⟨Backend.StatusNotFound, .error "Todo not found"⟩)) :=
  ⟨⟨0, 0, sampleOps, by decide, rfl⟩, by decide,
    deleteTodo_removes_exactly sampleStore 3 ⟨0, 0, sampleOps, by decide, rfl⟩ (by decide)⟩

/-! ## Claims on the frontend -/

/-- C6: for a fetched list, the items of the list page are exactly the items
with `Completed` true under filter `"completed"`, exactly those with
`Completed` false under filter `"active"`, and the whole list under every
other filter value (`"all"`, the empty value, anything unrecognized), in the
order of the fetched list. -/
theorem indexHandler_filter (filterQ successQ errorQ : String) (todos : List Frontend.Todo) :
    (Frontend.indexHandler filterQ successQ errorQ (.ok todos)).Todos =
      (if filterQ = "completed" then todos.filter (fun t => t.Completed)
       else if filterQ = "active" then todos.filter (fun t => !t.Completed)
       else todos) := by
  simp only [Frontend.indexHandler, Frontend.indexLoop_eq, List.nil_append]
  by_cases he : filterQ = ""
  · subst he
    simp [Frontend.selected]
  · simp [he, Frontend.selected]

/-- C9: for a fetched list and any filter value, the page data satisfies
`ActiveCount + CompletedCount = TotalCount`, with `TotalCount` the length of
the fetched list and `CompletedCount` the number of its completed items,
whatever the filter. -/
theorem indexHandler_counts (filterQ successQ errorQ : String) (todos : List Frontend.Todo) :
    (Frontend.indexHandler filterQ successQ errorQ (.ok todos)).ActiveCount +
        (Frontend.indexHandler filterQ successQ errorQ (.ok todos)).CompletedCount =
      (Frontend.indexHandler filterQ successQ errorQ (.ok todos)).TotalCount ∧
    (Frontend.indexHandler filterQ successQ errorQ (.ok todos)).TotalCount =
      (todos.length : Int) ∧
    (Frontend.indexHandler filterQ successQ errorQ (.ok todos)).CompletedCount =
      ((todos.filter (fun t => t.Completed)).length : Int) := by
  simp [Frontend.indexHandler, Frontend.indexLoop_eq]
/-- C8, as stated, fails: a toggle posted from the list page filtered on
`active`, for an id the store does not hold, is redirected to
`/?error=Failed+to+toggle+todo`, a URL that carries no `filter` value. -/
theorem toggle_failure_drops_filter :
    (Frontend.toggleTodoHandler .delivered (Backend.seedData Backend.initStore 0 0) 5
        (some 42) "active").2 = "/?error=Failed+to+toggle+todo" ∧
    Frontend.queryGet
      (Frontend.toggleTodoHandler .delivered (Backend.seedData Backend.initStore 0 0) 5
        (some 42) "active").2 "filter" ≠ some "active" := by
  decide

/-- C8, amended: every form action redirects to the list view with a URL fixed
by the path taken.  Each failure path (unparsable id, unparsable form, blank
title, failed API call) gives `/?error=...` without the filter; create gives
`/?success=Todo+created+successfully` on success; update and delete give
`/?success=...` followed by `&filter=` and the request's filter value when it
is non-empty; toggle gives `/` followed by `?filter=` and the filter value when
it is non-empty, without a success parameter.  The API call succeeds exactly
when the exchange is delivered and, for toggle, update and delete, the store
holds the id. -/
theorem form_action_redirects (link : Frontend.Link) (s : Backend.Store) (now1 now2 : Time)
    (idVar : Option Int) (form : Option Frontend.Form) (filter : String) :
    (Frontend.createTodoHandler link s now1 now2 form).2 =
      (match form with
       | none => "/?error=Invalid+form+data"
       | some f =>
         if Frontend.TrimSpace f.title = "" then "/?error=Title+is+required"
         else if link = .delivered then "/?success=Todo+created+successfully"
         else "/?error=Failed+to+create+todo") ∧
    (Frontend.toggleTodoHandler link s now1 idVar filter).2 =
      (match idVar with
       | none => "/?error=Invalid+todo+ID"
       | some id =>
         if link = .delivered ∧ ∃ t ∈ s.todos, t.ID = id then
           (if filter = "" then "/" else "/?filter=" ++ filter)
         else "/?error=Failed+to+toggle+todo") ∧
    (Frontend.updateTodoHandler link s now1 idVar form filter).2 =
      (match idVar with
       | none => "/?error=Invalid+todo+ID"
       | some id =>
         match form with
         | none => "/?error=Invalid+form+data"
         | some f =>
           if Frontend.TrimSpace f.title = "" then "/?error=Title+is+required"
           else if link = .delivered ∧ ∃ t ∈ s.todos, t.ID = id then
             (if filter = "" then "/?success=Todo+updated+successfully"
              else "/?success=Todo+updated+successfully&filter=" ++ filter)
           else "/?error=Failed+to+update+todo") ∧
    (Frontend.deleteTodoHandler link s idVar filter).2 =
      (match idVar with
       | none => "/?error=Invalid+todo+ID"
       | some id =>
         if link = .delivered ∧ ∃ t ∈ s.todos, t.ID = id then
           (if filter = "" then "/?success=Todo+deleted+successfully"
            else "/?success=Todo+deleted+successfully&filter=" ++ filter)
         else "/?error=Failed+to+delete+todo") := by
  refine ⟨?_, ?_, ?_, ?_⟩
  · cases form with
    | none => rfl
    | some f =>
      simp only [Frontend.createTodoHandler]
      by_cases ht : Frontend.TrimSpace f.title = ""
      · simp [ht]
      · simp only [ht, if_false]
        generalize hc : Frontend.createTodo link s now1 now2 _ = r
        have hiff : r.2 = none ↔ link = .delivered := by
          rw [← hc]
          exact Frontend.createTodo_ok_iff _ _ _ _ _
        obtain ⟨s1, e⟩ := r
        cases e with
        | none =>
          have : link = .delivered := hiff.1 rfl
          simp [this]
        | some e =>
          have : ¬ link = .delivered := fun h => by simpa using hiff.2 h
          simp [this]
  · cases idVar with
    | none => rfl
    | some id =>
      simp only [Frontend.toggleTodoHandler]
      generalize hc : Frontend.toggleTodo link s now1 id = r
      have hiff := Frontend.toggleTodo_ok_iff link s now1 id
      rw [hc] at hiff
      obtain ⟨s1, e⟩ := r
      cases e with
      | none =>
        have h := hiff.1 rfl
        by_cases hf : filter = ""
        · simp [h, hf]
        · simp [h, hf, String.append_assoc]
      | some e =>
        have h : ¬ (link = .delivered ∧ ∃ t ∈ s.todos, t.ID = id) :=
          fun h => by simpa using hiff.2 h
        simp only [h, if_false]
  · cases idVar with
    | none => rfl
    | some id =>
      cases form with
      | none => rfl
      | some f =>
        simp only [Frontend.updateTodoHandler]
        by_cases ht : Frontend.TrimSpace f.title = ""
        · simp [ht]
        · simp only [ht, if_false]
          generalize hc : Frontend.updateTodo link s now1 id _ = r
          have hiff : r.2 = none ↔ (link = .delivered ∧ ∃ t ∈ s.todos, t.ID = id) := by
            rw [← hc]
            exact Frontend.updateTodo_ok_iff _ _ _ _ _
          obtain ⟨s1, e⟩ := r
          cases e with
          | none =>
            have h := hiff.1 rfl
            by_cases hf : filter = ""
            · simp [h, hf]
            · simp [h, hf, String.append_assoc]
          | some e =>
            have h : ¬ (link = .delivered ∧ ∃ t ∈ s.todos, t.ID = id) :=
              fun h => by simpa using hiff.2 h
            simp only [h, if_false]
  · cases idVar with
    | none => rfl
    | some id =>
      simp only [Frontend.deleteTodoHandler]
      generalize hc : Frontend.deleteTodo link s id = r
      have hiff := Frontend.deleteTodo_ok_iff link s id
      rw [hc] at hiff
      obtain ⟨s1, e⟩ := r
      cases e with
      | none =>
        have h := hiff.1 rfl
        by_cases hf : filter = ""
        · simp [h, hf]
        · simp [h, hf, String.append_assoc]
      | some e =>
        have h : ¬ (link = .delivered ∧ ∃ t ∈ s.todos, t.ID = id) :=
          fun h => by simpa using hiff.2 h
        simp only [h, if_false]

/-- C10: for an id present in the store, an update posted through the frontend
with a non-blank title and reaching the API overwrites the first item with
that id by the trimmed title and description, the form's priority as it is
(the empty string stays empty, it does not become `"medium"`) and
`Completed = false`, whatever the stored flag was, keeping the id and
`CreatedAt`. -/
theorem frontend_update_clears_completed (link : Frontend.Link) (s : Backend.Store) (now : Time)
    (id : Int) (f : Frontend.Form) (filter : String)
    (hpresent : ∃ t ∈ s.todos, t.ID = id) (htitle : Frontend.TrimSpace f.title ≠ "")
    (hlink : link ≠ .dropped) :
    ∃ (i : Nat) (old : Backend.Todo),
      Backend.scanID id s.todos = some (i, old) ∧ s.todos[i]? = some old ∧ old.ID = id ∧
      (Frontend.updateTodoHandler link s now (some id) (some f) filter).1 =
        { todos := s.todos.set i
            ⟨old.ID, Frontend.TrimSpace f.title, Frontend.TrimSpace f.description, false,
              f.priority, old.CreatedAt, now⟩,
          nextID := s.nextID } ∧
      ∃ stored : Backend.Todo,
        (Frontend.updateTodoHandler link s now (some id) (some f) filter).1.todos[i]?
          = some stored ∧
        stored.Completed = false ∧ stored.Priority = f.priority := by
  obtain ⟨i, old, hscan⟩ := Backend.scanID_of_mem id s.todos hpresent
  obtain ⟨hold, holdid⟩ := Backend.scanID_some id s.todos i old hscan
  have hb := Backend.updateTodo_found s now id
    (Frontend.bindUpdate ⟨Frontend.TrimSpace f.title, Frontend.TrimSpace f.description,
      f.priority⟩) i old hscan
  have hstore : (Frontend.updateTodoHandler link s now (some id) (some f) filter).1 =
      { todos := s.todos.set i
          ⟨old.ID, Frontend.TrimSpace f.title, Frontend.TrimSpace f.description, false,
            f.priority, old.CreatedAt, now⟩,
        nextID := s.nextID } := by
    simp only [Frontend.updateTodoHandler, htitle, if_false, Frontend.updateTodo, hb]
    cases link with
    | dropped => exact absurd rfl hlink
    | delivered => simp [Frontend.exchange, Backend.StatusOK, Frontend.bindUpdate, holdid]
    | replyLost => simp [Frontend.exchange, Frontend.bindUpdate, holdid]
  refine ⟨i, old, hscan, hold, holdid, hstore, ?_⟩
  rw [hstore]
  exact ⟨_, Backend.getElem_set_self s.todos i _ (Backend.scanID_lt id s.todos i old hscan),
    rfl, rfl⟩

/-- Instance of C10: the completed item with id 3 of the sample store, updated
through the frontend with an empty priority. -/
theorem frontend_update_clears_completed_witness :
    (∃ t ∈ sampleStore.todos, t.ID = 3 ∧ t.Completed = true) ∧
    Frontend.TrimSpace " b2 " ≠ "" ∧ Frontend.Link.delivered ≠ Frontend.Link.dropped ∧
    ∃ (i : Nat) (old : Backend.Todo),
      Backend.scanID 3 sampleStore.todos = some (i, old) ∧ sampleStore.todos[i]? = some old ∧
      old.ID = 3 ∧
      (Frontend.updateTodoHandler .delivered sampleStore 10 (some 3)
          (some ⟨" b2 ", "", ""⟩) "active").1 =
        { todos := sampleStore.todos.set i
            ⟨old.ID, Frontend.TrimSpace " b2 ", Frontend.TrimSpace "", false,
              "", old.CreatedAt, 10⟩,
          nextID := sampleStore.nextID } ∧
      ∃ stored : Backend.Todo,
        (Frontend.updateTodoHandler .delivered sampleStore 10 (some 3)
          (some ⟨" b2 ", "", ""⟩) "active").1.todos[i]? = some stored ∧
        stored.Completed = false ∧ stored.Priority = "" :=
  ⟨by decide, by decide, by decide,
    frontend_update_clears_completed .delivered sampleStore 10 3 ⟨" b2 ", "", ""⟩ "active"
      (by decide) (by decide) (by decide)⟩
